import Mathlib

/-!
Shallow embedding of the ADB phone-automation scripts
(pythonautopollingfordeviceconnection.py, pythonautomationV2.py,
M10AGINGSTART_V2.0.7.py) and proofs about the claims of the
specification.

Modelling conventions:
* Python strings are Lean `String` / `List Char`; `str.strip` is `pyStripChars`
  restricted to ASCII whitespace (the inputs at issue are ASCII).
* The XML front end (`xml.etree.ElementTree.fromstring`) is modelled
  abstractly: a snapshot is `Option (List UiNode)`, where `none` stands for
  an unparseable document (the Python code catches the parse exception and
  returns the empty map) and `some ns` is the node list of a parsed tree.
* Python `int(h*0.45)` style computations on IEEE doubles are embedded as the
  exact integer divisions `45 * h / 100`; for the constants 0.12, 0.45, 0.85,
  0.88, 0.93 and all realistic screen dimensions the two coincide.
* Machine integers are `Nat` (all coordinates produced by the code are
  nonnegative); Python `//` on nonnegative operands is `Nat` division.
* `re.findall` of the bounds pattern and `re.search` of the digit-name
  pattern are embedded as executable scanners with the same leftmost,
  non-overlapping semantics.
-/

/-- ASCII whitespace as recognised by Python `str.strip`. -/
def pySpace (c : Char) : Bool :=
  c = ' ' || c = '\t' || c = '\n' || c = '\r'

/-- Python `str.strip` on a character list. -/
def pyStripChars (l : List Char) : List Char :=
  ((l.dropWhile pySpace).reverse.dropWhile pySpace).reverse

/-- Python `str.strip` on a string. -/
def pyStrip (s : String) : String :=
  ⟨pyStripChars s.data⟩

/-- Is `p` a prefix of `l`? (executable) -/
def isPrefixChars : List Char → List Char → Bool
  | [], _ => true
  | _ :: _, [] => false
  | a :: as, b :: bs => a == b && isPrefixChars as bs

/-- Python substring test `needle in hay`. -/
def containsChars : List Char → List Char → Bool
  | [], needle => isPrefixChars needle []
  | c :: t, needle => isPrefixChars needle (c :: t) || containsChars t needle

/-- Python substring test on strings: `strContains hay needle` is
`needle in hay`. -/
def strContains (hay needle : String) : Bool :=
  containsChars hay.data needle.data

/-- Python `str.lower` (ASCII). -/
def lowerChars (l : List Char) : List Char :=
  l.map Char.toLower

/-- Decimal digit character of `d` (used for `d < 10`). -/
def digitChar (d : Nat) : Char :=
  Char.ofNat (48 + d)

/-- Little-endian decimal digits of a natural number. -/
def natToRevDigits (n : Nat) : List Char :=
  if h : n < 10 then [digitChar n]
  else digitChar (n % 10) :: natToRevDigits (n / 10)
termination_by n
decreasing_by
  exact Nat.div_lt_self (by omega) (by omega)

/-- Decimal representation of a natural number, as written by a Python
f-string. -/
def natRepr (n : Nat) : List Char :=
  (natToRevDigits n).reverse

/-- Is `c` an ASCII decimal digit? -/
def isDigitChar (c : Char) : Bool :=
  48 ≤ c.toNat && c.toNat ≤ 57

/-- Numeric value of a big-endian digit list. -/
def charsToNat (l : List Char) : Nat :=
  l.foldl (fun a c => 10 * a + (c.toNat - 48)) 0

/-- Python `int(s)` restricted to the forms the cache writer produces:
optional surrounding whitespace around a nonempty run of digits. -/
def parseNat (l : List Char) : Option Nat :=
  let s := pyStripChars l
  if s ≠ [] ∧ s.all isDigitChar then some (charsToNat s) else none

/-- Split a character list at every occurrence of `c`
(Python `str.split(sep)`). -/
def splitOnChar (c : Char) : List Char → List (List Char)
  | [] => [[]]
  | x :: xs =>
    let ss := splitOnChar c xs
    if x == c then [] :: ss
    else
      match ss with
      | [] => [[x]]
      | s :: rest => (x :: s) :: rest

/-- The lines yielded by Python file iteration (with the line terminators
removed; a trailing newline does not create an extra empty line). -/
def fileLines (l : List Char) : List (List Char) :=
  let ss := splitOnChar '\n' l
  if ss.getLast? = some [] then ss.dropLast else ss

/-- Read a maximal nonempty run of digits (the `\d+` of the bounds regex). -/
def readNat (l : List Char) : Option (Nat × List Char) :=
  let ds := l.takeWhile isDigitChar
  if ds.isEmpty then none
  else some (charsToNat ds, l.dropWhile isDigitChar)

/-- Try to read `d+ , d+ ]` immediately after an opening bracket, as the
regex `\[(\d+),(\d+)\]` does once it has seen the bracket. -/
def tryPair (l : List Char) : Option ((Nat × Nat) × List Char) :=
  match readNat l with
  | none => none
  | some (x, r1) =>
    match r1 with
    | ',' :: r2 =>
      match readNat r2 with
      | none => none
      | some (y, r3) =>
        match r3 with
        | ']' :: r4 => some ((x, y), r4)
        | _ => none
    | _ => none

/-- Fuelled scanner for `re.findall(r"\[(\d+),(\d+)\]", s)`: leftmost,
non-overlapping matches.  The fuel starts at the length of the input and
each step consumes at least one character, so the fuel never runs out. -/
def findPairsFuel : Nat → List Char → List (Nat × Nat)
  | 0, _ => []
  | _ + 1, [] => []
  | fuel + 1, c :: rest =>
    if c = '[' then
      match tryPair rest with
      | some (p, r) => p :: findPairsFuel fuel r
      | none => findPairsFuel fuel rest
    else findPairsFuel fuel rest

/-- All `[x,y]` integer pairs occurring in a bounds attribute string. -/
def findPairs (l : List Char) : List (Nat × Nat) :=
  findPairsFuel l.length l

/-- Tap points are integer pixel pairs. -/
abbrev Pt := Nat × Nat

/-- The coordinate map: a Python dict from key strings to tap points,
modelled as an insertion-ordered association list with unique keys. -/
abbrev Coords := List (String × Pt)

/-- Python dict assignment `m[k] = v`: replace in place or append. -/
def dictInsert (m : Coords) (k : String) (v : Pt) : Coords :=
  match m with
  | [] => [(k, v)]
  | (k', v') :: rest =>
    if k' = k then (k, v) :: rest else (k', v') :: dictInsert rest k v

/-- First value stored under `k` (Python `m[k]` / `k in m`). -/
def lookupKey (m : Coords) (k : String) : Option Pt :=
  match m with
  | [] => none
  | (k', v) :: rest => if k' = k then some v else lookupKey rest k

/-- Python `k in m` for a dict. -/
def containsKey (m : Coords) (k : String) : Bool :=
  (lookupKey m k).isSome

/-- A UI snapshot element: the attributes `parse_coords_from_ui` reads, with
the Python default `""` for a missing attribute. -/
structure UiNode where
  text : String
  desc : String
  resid : String
  bounds : String
deriving DecidableEq

/-- The dial key alphabet string `"0123456789*#"`. -/
def keyAlphabetChars : List Char :=
  "0123456789*#".data

/-- The loop `for ch in "0123456789*#": if ch in resid or ch in desc`. -/
def firstAlphaKey (resid desc : List Char) : Option Char :=
  keyAlphabetChars.find? (fun c => resid.contains c || desc.contains c)

/-- The alternatives of the regex
`(zero|one|two|three|four|five|six|seven|eight|nine|star|pound|hash|call)`
paired with the `mapping` dict of the source. -/
def tokenPairs : List (List Char × String) :=
  [("zero".data, "0"), ("one".data, "1"), ("two".data, "2"),
   ("three".data, "3"), ("four".data, "4"), ("five".data, "5"),
   ("six".data, "6"), ("seven".data, "7"), ("eight".data, "8"),
   ("nine".data, "9"), ("star".data, "*"), ("pound".data, "#"),
   ("hash".data, "#"), ("call".data, "CALL")]

/-- `re.search` for the digit-name pattern composed with `mapping`:
leftmost match position wins, and at one position the alternatives are
tried in the order they are listed. -/
def searchTok : List Char → Option String
  | [] => none
  | c :: rest =>
    match tokenPairs.find? (fun t => isPrefixChars t.1 (c :: rest)) with
    | some t => some t.2
    | none => searchTok rest

/-- Key classification of one element in `parse_coords_from_ui`:
(a) nonempty stripped text that is a substring of `"0123456789*#"`;
(b) else the first alphabet character occurring in resource-id or
content-desc; (c) else the digit-name regex over
`(resid + " " + desc).lower()`. -/
def classifyNode (n : UiNode) : Option String :=
  let text := pyStripChars n.text.data
  let desc := pyStripChars n.desc.data
  let resid := pyStripChars n.resid.data
  if text ≠ [] ∧ containsChars keyAlphabetChars text then some ⟨text⟩
  else
    match firstAlphaKey resid desc with
    | some c => some ⟨[c]⟩
    | none => searchTok (lowerChars (resid ++ ' ' :: desc))

/-- One iteration of the node loop of `parse_coords_from_ui`: classified
elements whose bounds attribute is nonempty and yields exactly two integer
pairs are stored with the integer midpoint of the bounds. -/
def pcStep (acc : Coords) (n : UiNode) : Coords :=
  match classifyNode n with
  | none => acc
  | some k =>
    if n.bounds ≠ "" then
      match findPairs n.bounds.data with
      | [(x1, y1), (x2, y2)] => dictInsert acc k ((x1 + x2) / 2, (y1 + y2) / 2)
      | _ => acc
    else acc

/-- `parse_coords_from_ui` of pythonautopollingfordeviceconnection.py.
`none` models an input on which `ET.fromstring` raises, which the code
catches, returning the empty map. -/
def parse_coords_from_ui (xml : Option (List UiNode)) : Coords :=
  match xml with
  | none => []
  | some ns => ns.foldl pcStep []

/-- Key classification of `parse_dialpad_coords` in pythonautomationV2.py:
skip elements with falsy text or whose stripped text is not a substring of
`"0123456789*#"`. -/
def v2KeyOf (n : UiNode) : Option String :=
  if n.text = "" then none
  else if containsChars keyAlphabetChars (pyStripChars n.text.data) then
    some ⟨pyStripChars n.text.data⟩
  else none

/-- One iteration of the node loop of `parse_dialpad_coords`. -/
def v2Step (acc : Coords) (n : UiNode) : Coords :=
  match v2KeyOf n with
  | none => acc
  | some k =>
    match findPairs n.bounds.data with
    | [(x1, y1), (x2, y2)] => dictInsert acc k ((x1 + x2) / 2, (y1 + y2) / 2)
    | _ => acc

/-- `parse_dialpad_coords` of pythonautomationV2.py (over a parsed tree). -/
def parse_dialpad_coords (ns : List UiNode) : Coords :=
  ns.foldl v2Step []

/-- The twelve grid keys in the row-major order of the `mapping` list. -/
def gridKeys : List String :=
  ["1", "2", "3", "4", "5", "6", "7", "8", "9", "*", "0", "#"]

/-- `fallback_grid`: `none` models a failed `wm size` query, for which the
code uses the fixed default 720 by 1612.  Python `int(h*0.45)` etc. are the
exact divisions by 100 (see the header). -/
def fallback_grid (scr : Option (Nat × Nat)) : Coords :=
  let wh := match scr with | none => (720, 1612) | some p => p
  let w := wh.1
  let h := wh.2
  let top := 45 * h / 100
  let bottom := 85 * h / 100
  let left := 12 * w / 100
  let right := 88 * w / 100
  let cols := [left, w / 2, right]
  let rows := (List.range 4).map (fun i => top + (bottom - top) * i / 4)
  let cells := rows.foldr (fun r acc => (cols.map (fun c => (c, r))) ++ acc) []
  let grid := (gridKeys.zip cells).foldl (fun acc kc => dictInsert acc kc.1 kc.2) []
  dictInsert grid "CALL" (w / 2, 93 * h / 100)

/-- The token list `("call","dial","dialer","phone","endcall")` of the
second CALL pass. -/
def callTokens : List (List Char) :=
  ["call".data, "dial".data, "dialer".data, "phone".data, "endcall".data]

/-- The second-pass test
`any(k in (resid+desc+text) for k in (...))` over the lowered, unstripped
attributes (note: the Python concatenates without separators). -/
def callTokenMatch (n : UiNode) : Bool :=
  let s := lowerChars (n.resid.data ++ n.desc.data ++ n.text.data)
  callTokens.any (fun t => containsChars s t)

/-- The second pass of `prepare_coords_for_device`: scan all elements for
the first one matching a call token and having two bounds pairs, and store
its midpoint under CALL. -/
def secondPassCall (ns : List UiNode) (coords : Coords) : Coords :=
  match ns.find? (fun n => callTokenMatch n && (findPairs n.bounds.data).length == 2) with
  | some n =>
    match findPairs n.bounds.data with
    | [(x1, y1), (x2, y2)] => dictInsert coords "CALL" ((x1 + x2) / 2, (y1 + y2) / 2)
    | _ => coords
  | none => coords

/-- The completeness count
`len([k for k in coords.keys() if k in "0123456789*#"])` — note that the
Python membership test is a substring test on each key. -/
def digitCount (m : Coords) : Nat :=
  (m.map Prod.fst).countP (fun k => containsChars keyAlphabetChars k.data)

/-- `prepare_coords_for_device`: the cached-map short circuit, the UI
parse, the completeness test, the (unreachable) second CALL pass, and the
grid fallback.  `xml = none` models both a failed UI dump and an
unparseable document (both yield the empty parse and, in the second pass,
the swallowed exception). -/
def prepare_coords_for_device (cached : Option Coords) (xml : Option (List UiNode))
    (scr : Option (Nat × Nat)) : Coords :=
  match cached with
  | some g => g
  | none =>
    let coords := parse_coords_from_ui xml
    if digitCount coords < 10 ∨ containsKey coords "CALL" = false then
      fallback_grid scr
    else
      if containsKey coords "CALL" = false then
        match xml with
        | some ns => secondPassCall ns coords
        | none => coords
      else coords

/-- The `for ch in USSD_CODE` loop shared by `process_device`
(pythonautopollingfordeviceconnection.py) and `dial_code`
(pythonautomationV2.py): tap the stored point of each present character, in
input order; emit a skip warning for each absent character and continue. -/
def dial_code (code : List Char) (m : Coords) : List Pt × List Char :=
  match code with
  | [] => ([], [])
  | c :: cs =>
    match lookupKey m ⟨[c]⟩ with
    | some p =>
      let r := dial_code cs m
      (p :: r.1, r.2)
    | none =>
      let r := dial_code cs m
      (r.1, c :: r.2)

/-- The CALL press after the injection loop in `process_device`: the CALL
coordinate if present, else the bottom-center fallback from the screen
size, else the fixed point (360, 1500). -/
def callTapOf (m : Coords) (scr : Option (Nat × Nat)) : Pt :=
  match lookupKey m "CALL" with
  | some p => p
  | none =>
    match scr with
    | some wh => (wh.1 / 2, 93 * wh.2 / 100)
    | none => (360, 1500)

/-- The full injection block of `process_device`
(pythonautopollingfordeviceconnection.py, lines 271 to 289): the taps
issued in order (code characters then the CALL press) and the skip
warnings. -/
def injection_with_call (code : List Char) (m : Coords)
    (scr : Option (Nat × Nat)) : List Pt × List Char :=
  ((dial_code code m).1 ++ [callTapOf m scr], (dial_code code m).2)

/-- The characters of one cache line `f"{k}:{v[0]},{v[1]}"` (without the
newline). -/
def lineOfChars (kv : String × Pt) : List Char :=
  kv.1.data ++ ':' :: (natRepr kv.2.1 ++ ',' :: natRepr kv.2.2)

/-- The characters `save_coords` writes to the cache file: one line per
dict entry, each terminated by a newline. -/
def saveChars (m : Coords) : List Char :=
  m.foldr (fun kv acc => lineOfChars kv ++ '\n' :: acc) []

/-- `save_coords` of pythonautopollingfordeviceconnection.py: the full text
written to the cache file. -/
def save_coords (m : Coords) : String :=
  ⟨saveChars m⟩

/-- One iteration of the line loop of `load_coords`: lines without a colon
are skipped; otherwise `k, val = line.strip().split(":")` and
`x, y = map(int, val.split(","))` must both produce exactly two parts, and
any failure raises (modelled as `none`), which `load_coords` turns into a
failed load. -/
def loadLine (acc : Coords) (l : List Char) : Option Coords :=
  if ':' ∈ l then
    match splitOnChar ':' (pyStripChars l) with
    | [k, val] =>
      match splitOnChar ',' val with
      | [xs, ys] =>
        match parseNat xs, parseNat ys with
        | some x, some y => some (dictInsert acc ⟨k⟩ (x, y))
        | _, _ => none
      | _ => none
    | _ => none
  else some acc

/-- Fold `loadLine` over the file lines, propagating a parse failure. -/
def loadLines (acc : Coords) : List (List Char) → Option Coords
  | [] => some acc
  | l :: ls =>
    match loadLine acc l with
    | some acc2 => loadLines acc2 ls
    | none => none

/-- `load_coords` of pythonautopollingfordeviceconnection.py applied to the
contents of an existing cache file (`none` is the caught-exception
result). -/
def load_coords (s : String) : Option Coords :=
  loadLines [] (fileLines s.data)

/-- The key alphabet of the coordinate map, as named by the spec. -/
def keyAlphabet : List String :=
  ["0", "1", "2", "3", "4", "5", "6", "7", "8", "9", "*", "#", "CALL"]

/- ------------------------------------------------------------------ -/
/- M10AGINGSTART_V2.0.7.py: the application-launch session.            -/
/- ------------------------------------------------------------------ -/

/-- Events of one session of M10 `process_device`: an adb invocation
(identified by its command line) or an outcome record appended by
`log_to_csv` (identified by its status; duration and timestamp are
wall-clock data outside the embedding). -/
inductive Ev where
  | adb (cmd : String)
  | record (status : String)
deriving DecidableEq

/-- The command lines of the adb call sites of M10 (the quotes Python puts
around `Display Power` are dropped from the label). -/
def powerCmd : String := "shell dumpsys power | findstr Display Power"

def key26Cmd : String := "shell input keyevent 26"

def key82Cmd : String := "shell input keyevent 82"

def swipeCmd : String := "shell input swipe 500 1500 500 300"

def pidofCmd : String := "shell pidof com.sprd.validationtools"

def fgCmd : String := "shell dumpsys window windows | findstr mCurrentFocus"

def launchCmd : String :=
  "shell am broadcast -a android.provider.Telephony.SECRET_CODE -d android_secret_code://4321"

/-- The application package `APP_PACKAGE`. -/
def pkgStr : String := "com.sprd.validationtools"

/-- Transport responses for the adb call sites of one M10 session, one
field per call site in source order.  `none` means the call raises an
unexpected transport error (which `process_device` does not catch);
`some s` is the raw stdout, which `adb` strips. -/
structure M10Env where
  power : Option String
  key26 : Option String
  key82 : Option String
  swipe : Option String
  pidof : Option String
  fgA : Option String
  launchB : Option String
  fgB : Option String
  launchC : Option String
  fgC : Option String
  launchD : Option String
  fgD : Option String

/-- Execute one adb call: on a transport error the session dies with the
exception (no further events, no record); otherwise the stripped output is
passed on. -/
def adbStep (o : Option String) (cmd : String)
    (k : String → List Ev × Bool) : List Ev × Bool :=
  match o with
  | none => ([Ev.adb cmd], true)
  | some raw =>
    let r := k (pyStrip raw)
    (Ev.adb cmd :: r.1, r.2)

/-- Reaching `log_to_csv`: exactly one record, session not aborted. -/
def commitRecord (st : String) : List Ev × Bool :=
  ([Ev.record st], false)

/-- `check_foreground`: `APP_PACKAGE in output`. -/
def hasPkg (o : String) : Bool :=
  containsChars o.data pkgStr.data

/-- `is_screen_on` of M10. -/
def screenOnOf (o : String) : Bool :=
  containsChars o.data "state=ON".data ||
    containsChars o.data "mHoldingDisplaySuspendBlocker=true".data

/-- The branch of `process_device` for a running app: foreground check,
then at most one launch broadcast with a second foreground check. -/
def runBranch (e : M10Env) : List Ev × Bool :=
  adbStep e.fgA fgCmd fun oA =>
    if hasPkg oA then commitRecord "Already Running"
    else
      adbStep e.launchB launchCmd fun _ =>
        adbStep e.fgB fgCmd fun oB =>
          if hasPkg oB then commitRecord "Brought to Foreground"
          else commitRecord "Foreground Failed"

/-- The branch of `process_device` for an app that is not running: launch,
check, and on failure retry once. -/
def notRunBranch (e : M10Env) : List Ev × Bool :=
  adbStep e.launchC launchCmd fun _ =>
    adbStep e.fgC fgCmd fun oC =>
      if hasPkg oC then commitRecord "Launched"
      else
        adbStep e.launchD launchCmd fun _ =>
          adbStep e.fgD fgCmd fun oD =>
            if hasPkg oD then commitRecord "Launched After Retry"
            else commitRecord "Failed"

/-- `is_app_running` and the branch on it (`bool(output.strip())`). -/
def appStage (e : M10Env) : List Ev × Bool :=
  adbStep e.pidof pidofCmd fun o =>
    if (pyStrip o).data = [] then notRunBranch e else runBranch e

/-- The unconditional part of `wake_and_unlock`: keyevent 82 and swipe. -/
def unlockStage (e : M10Env) : List Ev × Bool :=
  adbStep e.key82 key82Cmd fun _ =>
    adbStep e.swipe swipeCmd fun _ => appStage e

/-- One M10 session after the cooldown guard: the event trace and the
aborted flag.  `process_device` has no exception handler, so a raising adb
call terminates the session thread before `log_to_csv` runs. -/
def process_device (e : M10Env) : List Ev × Bool :=
  adbStep e.power powerCmd fun o =>
    if screenOnOf o then unlockStage e
    else adbStep e.key26 key26Cmd fun _ => unlockStage e

/-- Number of outcome records in a trace. -/
def recordsOf (t : List Ev) : Nat :=
  t.countP (fun ev => match ev with | Ev.record _ => true | Ev.adb _ => false)

/-- Number of launch-broadcast invocations in a trace. -/
def launchesOf (t : List Ev) : Nat :=
  t.countP (fun ev => match ev with
    | Ev.adb c => c == launchCmd
    | Ev.record _ => false)

/-- The statuses recorded in a trace, in order. -/
def recStatuses (t : List Ev) : List String :=
  t.filterMap (fun ev => match ev with
    | Ev.record s => some s
    | Ev.adb _ => none)

/-- An environment in which every transport call succeeds, with the given
outputs. -/
def liveEnv (op o26 o82 osw opid ofA olB ofB olC ofC olD ofD : String) : M10Env :=
  ⟨some op, some o26, some o82, some osw, some opid, some ofA,
   some olB, some ofB, some olC, some ofC, some olD, some ofD⟩

/-- An environment whose first transport call raises. -/
def envNone : M10Env :=
  ⟨none, none, none, none, none, none, none, none, none, none, none, none⟩

/- ------------------------------------------------------------------ -/
/- Concrete snapshots used as counterexamples and witnesses.           -/
/- ------------------------------------------------------------------ -/

/-- Build an element from text, content-desc, resource-id and bounds. -/
def mkNode (t d r b : String) : UiNode :=
  ⟨t, d, r, b⟩

/-- A plain keypad element with the given label text. -/
def keyNode (t b : String) : UiNode :=
  mkNode t "" "" b

/-- A snapshot with eight of the ten digits, both operators, and a call
element: keys 0 to 7, star, hash and CALL resolve, 8 and 9 do not. -/
def c1Nodes : List UiNode :=
  [keyNode "0" "[0,0][10,10]", keyNode "1" "[10,0][20,10]",
   keyNode "2" "[20,0][30,10]", keyNode "3" "[0,10][10,20]",
   keyNode "4" "[10,10][20,20]", keyNode "5" "[20,10][30,20]",
   keyNode "6" "[0,20][10,30]", keyNode "7" "[10,20][20,30]",
   keyNode "*" "[0,30][10,40]", keyNode "#" "[20,30][30,40]",
   mkNode "" "" "call_button" "[100,200][300,400]"]

/-- The same snapshot without the call element. -/
def c1bNodes : List UiNode :=
  [keyNode "0" "[0,0][10,10]", keyNode "1" "[10,0][20,10]",
   keyNode "2" "[20,0][30,10]", keyNode "3" "[0,10][10,20]",
   keyNode "4" "[10,10][20,20]", keyNode "5" "[20,10][30,20]",
   keyNode "6" "[0,20][10,30]", keyNode "7" "[10,20][20,30]",
   keyNode "*" "[0,30][10,40]", keyNode "#" "[20,30][30,40]"]

/-- A snapshot with the complete twelve-key digit set but no element the
first pass classifies as CALL, together with an element whose content-desc
contains the second-pass token `dial`. -/
def c2Nodes : List UiNode :=
  [keyNode "1" "[0,0][10,10]", keyNode "2" "[10,0][20,10]",
   keyNode "3" "[20,0][30,10]", keyNode "4" "[0,10][10,20]",
   keyNode "5" "[10,10][20,20]", keyNode "6" "[20,10][30,20]",
   keyNode "7" "[0,20][10,30]", keyNode "8" "[10,20][20,30]",
   keyNode "9" "[20,20][30,30]", keyNode "*" "[0,30][10,40]",
   keyNode "0" "[10,30][20,40]", keyNode "#" "[20,30][30,40]",
   mkNode "" "dial" "" "[10,20][30,40]"]

/-- A one-element snapshot whose key has bounds `[10,20][30,40]`. -/
def c8Nodes : List UiNode :=
  [keyNode "5" "[10,20][30,40]"]

/-- An element whose bounds attribute holds a single pair only. -/
def badBoundsNode : UiNode :=
  keyNode "7" "[1,2]"

/-- A key character is free of whitespace and of the cache separators. -/
def goodKeyChar (c : Char) : Bool :=
  !(pySpace c) && !(c == ':') && !(c == ',') && !(c == '\n')

/- ================================================================== -/
/- Theorems.                                                           -/
/- ================================================================== -/

theorem lookupKey_dictInsert (m : Coords) (k : String) (v : Pt) (k' : String) :
    lookupKey (dictInsert m k v) k' = if k' = k then some v else lookupKey m k' := by
  induction m with
  | nil =>
    by_cases h : k' = k
    · subst h; simp [dictInsert, lookupKey]
    · simp only [dictInsert, lookupKey]
      rw [if_neg (fun hh => h hh.symm), if_neg h]
  | cons kv rest ih =>
    obtain ⟨k1, v1⟩ := kv
    by_cases h1 : k1 = k
    · subst h1
      simp only [dictInsert, if_pos rfl, lookupKey]
      by_cases h2 : k' = k1
      · subst h2; simp
      · simp [h2, Ne.symm h2]
    · simp only [dictInsert, if_neg h1, lookupKey]
      by_cases h2 : k' = k1
      · subst h2; simp [lookupKey, h1]
      · simp [lookupKey, ih, h2, Ne.symm h2]

/-- Values in a fold of key-inserting steps come from the accumulator or
from a contribution of one of the folded elements. -/
theorem foldl_lookup_origin (step : Coords → UiNode → Coords)
    (C : UiNode → String → Pt → Prop)
    (hstep : ∀ acc n k p, lookupKey (step acc n) k = some p →
      lookupKey acc k = some p ∨ C n k p) :
    ∀ (ns : List UiNode) (acc : Coords) (k : String) (p : Pt),
      lookupKey (ns.foldl step acc) k = some p →
      lookupKey acc k = some p ∨ ∃ n, n ∈ ns ∧ C n k p := by
  intro ns
  induction ns with
  | nil => intro acc k p h; exact Or.inl h
  | cons n rest ih =>
    intro acc k p h
    rcases ih (step acc n) k p h with h1 | ⟨n', hn', hc⟩
    · rcases hstep acc n k p h1 with h2 | hc
      · exact Or.inl h2
      · exact Or.inr ⟨n, List.mem_cons_self n rest, hc⟩
    · exact Or.inr ⟨n', List.mem_cons_of_mem n hn', hc⟩

/-- What one `parse_coords_from_ui` loop step can contribute. -/
theorem pcStep_origin (acc : Coords) (n : UiNode) (k : String) (p : Pt)
    (h : lookupKey (pcStep acc n) k = some p) :
    lookupKey acc k = some p ∨
      (classifyNode n = some k ∧ ∃ x1 y1 x2 y2,
        findPairs n.bounds.data = [(x1, y1), (x2, y2)] ∧
        p = ((x1 + x2) / 2, (y1 + y2) / 2)) := by
  unfold pcStep at h
  cases hcl : classifyNode n with
  | none => rw [hcl] at h; exact Or.inl h
  | some k' =>
    rw [hcl] at h
    dsimp only at h
    by_cases hb : n.bounds ≠ ""
    · rw [if_pos hb] at h
      rcases hfp : findPairs n.bounds.data with _ | ⟨⟨x1, y1⟩, _ | ⟨⟨x2, y2⟩, _ | ⟨q, rest⟩⟩⟩ <;>
        rw [hfp] at h
      · exact Or.inl h
      · exact Or.inl h
      · rw [lookupKey_dictInsert] at h
        by_cases hk : k = k'
        · subst hk
          rw [if_pos rfl] at h
          exact Or.inr ⟨rfl, x1, y1, x2, y2, rfl, (Option.some.inj h).symm⟩
        · rw [if_neg hk] at h; exact Or.inl h
      · exact Or.inl h
    · rw [if_neg hb] at h; exact Or.inl h

/-- What one `parse_dialpad_coords` loop step can contribute. -/
theorem v2Step_origin (acc : Coords) (n : UiNode) (k : String) (p : Pt)
    (h : lookupKey (v2Step acc n) k = some p) :
    lookupKey acc k = some p ∨
      (v2KeyOf n = some k ∧ ∃ x1 y1 x2 y2,
        findPairs n.bounds.data = [(x1, y1), (x2, y2)] ∧
        p = ((x1 + x2) / 2, (y1 + y2) / 2)) := by
  unfold v2Step at h
  cases hcl : v2KeyOf n with
  | none => rw [hcl] at h; exact Or.inl h
  | some k' =>
    rw [hcl] at h
    dsimp only at h
    rcases hfp : findPairs n.bounds.data with _ | ⟨⟨x1, y1⟩, _ | ⟨⟨x2, y2⟩, _ | ⟨q, rest⟩⟩⟩ <;>
      rw [hfp] at h
    · exact Or.inl h
    · exact Or.inl h
    · rw [lookupKey_dictInsert] at h
      by_cases hk : k = k'
      · subst hk
        rw [if_pos rfl] at h
        exact Or.inr ⟨rfl, x1, y1, x2, y2, rfl, (Option.some.inj h).symm⟩
      · rw [if_neg hk] at h; exact Or.inl h
    · exact Or.inl h

/-- C8. Every tap point stored by the snapshot parsers is the exact integer
midpoint `((x1+x2)/2, (y1+y2)/2)` (integer division; all bounds are
nonnegative, so this rounds toward zero) of the bounds of the element that
was classified as that key — for `parse_coords_from_ui` of the polling
script and for `parse_dialpad_coords` of the V2 script alike.  In
particular this holds for every key of the map resolved from a snapshot
containing the digits and operators. -/
theorem c8_midpoints :
    (∀ (ns : List UiNode) (k : String) (p : Pt),
      lookupKey (parse_coords_from_ui (some ns)) k = some p →
      ∃ n, n ∈ ns ∧ classifyNode n = some k ∧ ∃ x1 y1 x2 y2,
        findPairs n.bounds.data = [(x1, y1), (x2, y2)] ∧
        p = ((x1 + x2) / 2, (y1 + y2) / 2)) ∧
    (∀ (ns : List UiNode) (k : String) (p : Pt),
      lookupKey (parse_dialpad_coords ns) k = some p →
      ∃ n, n ∈ ns ∧ v2KeyOf n = some k ∧ ∃ x1 y1 x2 y2,
        findPairs n.bounds.data = [(x1, y1), (x2, y2)] ∧
        p = ((x1 + x2) / 2, (y1 + y2) / 2)) := by
  constructor
  · intro ns k p h
    have := foldl_lookup_origin pcStep
      (fun n k p => classifyNode n = some k ∧ ∃ x1 y1 x2 y2,
        findPairs n.bounds.data = [(x1, y1), (x2, y2)] ∧
        p = ((x1 + x2) / 2, (y1 + y2) / 2))
      pcStep_origin ns [] k p h
    rcases this with h1 | ⟨n, hn, hc⟩
    · simp [lookupKey] at h1
    · exact ⟨n, hn, hc⟩
  · intro ns k p h
    have := foldl_lookup_origin v2Step
      (fun n k p => v2KeyOf n = some k ∧ ∃ x1 y1 x2 y2,
        findPairs n.bounds.data = [(x1, y1), (x2, y2)] ∧
        p = ((x1 + x2) / 2, (y1 + y2) / 2))
      v2Step_origin ns [] k p h
    rcases this with h1 | ⟨n, hn, hc⟩
    · simp [lookupKey] at h1
    · exact ⟨n, hn, hc⟩

/-- Witness for C8: the key 5 of the concrete snapshot `c8Nodes` resolves
to (20, 30), and the theorem recovers the element with bounds
`[10,20][30,40]` whose midpoint that is. -/
theorem c8_midpoints_witness :
    ∃ n, n ∈ c8Nodes ∧ classifyNode n = some "5" ∧ ∃ x1 y1 x2 y2,
      findPairs n.bounds.data = [(x1, y1), (x2, y2)] ∧
      ((20, 30) : Pt) = ((x1 + x2) / 2, (y1 + y2) / 2) :=
  c8_midpoints.1 c8Nodes "5" (20, 30) (by decide)

/-- An element whose bounds attribute does not yield exactly two pairs
contributes nothing to the parse. -/
theorem pcStep_skip (n : UiNode) (h : (findPairs n.bounds.data).length ≠ 2) :
    ∀ acc : Coords, pcStep acc n = acc := by
  intro acc
  unfold pcStep
  cases hcl : classifyNode n with
  | none => rfl
  | some k =>
    dsimp only
    by_cases hb : n.bounds ≠ ""
    · rw [if_pos hb]
      rcases hfp : findPairs n.bounds.data with _ | ⟨⟨x1, y1⟩, _ | ⟨⟨x2, y2⟩, _ | ⟨q, rest⟩⟩⟩
      · rfl
      · rfl
      · exact absurd (by rw [hfp]; rfl) h
      · rfl
    · rw [if_neg hb]

/-- C10. The snapshot parser is total and defensive: an unparseable
document yields the empty map (the caught exception path), and an element
whose bounds attribute does not contain exactly two `[x,y]` integer pairs
is silently ignored — removing it from the snapshot does not change the
result.  (Totality over arbitrary input is structural: every branch of the
embedding is a total function, mirroring the try/except around the XML
parse and the guarded bounds extraction.) -/
theorem c10_parser_total :
    parse_coords_from_ui none = [] ∧
    ∀ (pre suf : List UiNode) (bad : UiNode),
      (findPairs bad.bounds.data).length ≠ 2 →
      parse_coords_from_ui (some (pre ++ bad :: suf)) =
        parse_coords_from_ui (some (pre ++ suf)) := by
  constructor
  · rfl
  · intro pre suf bad h
    show (pre ++ bad :: suf).foldl pcStep [] = (pre ++ suf).foldl pcStep []
    rw [List.foldl_append pcStep [] pre (bad :: suf),
      List.foldl_append pcStep [] pre suf, List.foldl_cons,
      pcStep_skip bad h]

/-- Witness for C10: dropping the element with the one-pair bounds
attribute `[1,2]` from a concrete snapshot leaves the parse unchanged. -/
theorem c10_parser_total_witness :
    parse_coords_from_ui (some (c8Nodes ++ badBoundsNode :: [])) =
      parse_coords_from_ui (some (c8Nodes ++ [])) :=
  c10_parser_total.2 c8Nodes [] badBoundsNode (by decide)

/-- The tap and warning lists of the injection loop: taps are the stored
points of the present characters in input order, warnings the absent
characters in input order. -/
theorem dial_code_spec (m : Coords) :
    ∀ code : List Char,
      (dial_code code m).1 = code.filterMap (fun c => lookupKey m ⟨[c]⟩) ∧
      (dial_code code m).2 = code.filter (fun c => (lookupKey m ⟨[c]⟩).isNone) := by
  intro code
  induction code with
  | nil => exact ⟨rfl, rfl⟩
  | cons c cs ih =>
    cases hl : lookupKey m ⟨[c]⟩ with
    | none =>
      constructor
      · show (dial_code (c :: cs) m).1 = _
        rw [dial_code, hl, List.filterMap_cons, hl]
        exact ih.1
      · show (dial_code (c :: cs) m).2 = _
        rw [dial_code, hl, List.filter_cons]
        simp only [hl, Option.isNone_none, if_pos]
        exact congrArg (c :: ·) ih.2
    | some p =>
      constructor
      · show (dial_code (c :: cs) m).1 = _
        rw [dial_code, hl, List.filterMap_cons, hl]
        exact congrArg (p :: ·) ih.1
      · show (dial_code (c :: cs) m).2 = _
        rw [dial_code, hl, List.filter_cons]
        simp only [hl, Option.isNone_some, if_neg]
        exact ih.2

/-- C7. Injecting a code taps exactly the present characters in input
order, followed by exactly one CALL tap, and every absent character is
skipped with a warning instead of failing the session; in particular
injecting `"*123#"` against a map holding all five characters and CALL
issues exactly those five taps in order and then the CALL tap, with no
warnings. -/
theorem c7_injection :
    (∀ (m : Coords) (scr : Option (Nat × Nat)) (p1 p2 p3 p4 p5 pc : Pt),
      lookupKey m "*" = some p1 → lookupKey m "1" = some p2 →
      lookupKey m "2" = some p3 → lookupKey m "3" = some p4 →
      lookupKey m "#" = some p5 → lookupKey m "CALL" = some pc →
      injection_with_call "*123#".data m scr = ([p1, p2, p3, p4, p5, pc], [])) ∧
    (∀ (code : List Char) (m : Coords) (scr : Option (Nat × Nat)),
      (injection_with_call code m scr).1 =
        code.filterMap (fun c => lookupKey m ⟨[c]⟩) ++ [callTapOf m scr] ∧
      (injection_with_call code m scr).2 =
        code.filter (fun c => (lookupKey m ⟨[c]⟩).isNone)) := by
  constructor
  · intro m scr p1 p2 p3 p4 p5 pc h1 h2 h3 h4 h5 hc
    show injection_with_call ['*', '1', '2', '3', '#'] m scr = _
    have e1 : ("*" : String) = ⟨['*']⟩ := rfl
    have e2 : ("1" : String) = ⟨['1']⟩ := rfl
    have e3 : ("2" : String) = ⟨['2']⟩ := rfl
    have e4 : ("3" : String) = ⟨['3']⟩ := rfl
    have e5 : ("#" : String) = ⟨['#']⟩ := rfl
    rw [e1] at h1; rw [e2] at h2; rw [e3] at h3; rw [e4] at h4; rw [e5] at h5
    unfold injection_with_call callTapOf
    rw [hc]
    rw [dial_code, h1, dial_code, h2, dial_code, h3, dial_code, h4,
      dial_code, h5, dial_code]
    rfl
  · intro code m scr
    exact ⟨by
      show (dial_code code m).1 ++ [callTapOf m scr] = _
      rw [(dial_code_spec m code).1], (dial_code_spec m code).2⟩

/-- Witness for C7: injecting `"*123#"` against the complete fallback grid
for the default screen size issues its five key taps in order and then the
CALL tap. -/
theorem c7_injection_witness :
    injection_with_call "*123#".data (fallback_grid (some (720, 1612)))
        (some (720, 1612)) =
      ([(86, 1208), (86, 725), (360, 725), (633, 725), (633, 1208), (360, 1499)], []) :=
  c7_injection.1 (fallback_grid (some (720, 1612))) (some (720, 1612))
    (86, 1208) (86, 725) (360, 725) (633, 725) (633, 1208) (360, 1499)
    (by decide) (by decide) (by decide) (by decide) (by decide) (by decide)

/-- C1 counterexample. A snapshot resolving only the keys 0 to 7, star,
hash and CALL has fewer than the twelve digit/operator keys, yet the
resolver does not fall back to the grid: it returns the incomplete map,
which lacks the key 8 that every fallback grid contains.  The code gates
the fallback on at least ten keys of the twelve-key alphabet (plus CALL
presence), not on all twelve. -/
theorem c1_counterexample :
    lookupKey (prepare_coords_for_device none (some c1Nodes) (some (720, 1612))) "8" = none ∧
    (lookupKey (fallback_grid (some (720, 1612))) "8").isSome = true ∧
    digitCount (parse_coords_from_ui (some c1Nodes)) = 10 := by
  refine ⟨?_, ?_, ?_⟩ <;> decide

/-- C1 as amended. The resolver falls back to the grid exactly when the
count of resolved keys that are substrings of `"0123456789*#"` is below
ten or no CALL key was resolved; otherwise it returns the parsed map —
so a snapshot with eight digits plus star and hash falls back when CALL is
also missing, but is returned incomplete when a CALL key was resolved. -/
theorem c1_resolver_fallback (xml : Option (List UiNode)) (scr : Option (Nat × Nat)) :
    (digitCount (parse_coords_from_ui xml) < 10 ∨
        containsKey (parse_coords_from_ui xml) "CALL" = false →
      prepare_coords_for_device none xml scr = fallback_grid scr) ∧
    (10 ≤ digitCount (parse_coords_from_ui xml) ∧
        containsKey (parse_coords_from_ui xml) "CALL" = true →
      prepare_coords_for_device none xml scr = parse_coords_from_ui xml) := by
  constructor
  · intro h
    unfold prepare_coords_for_device
    dsimp only
    rw [if_pos h]
  · rintro ⟨h1, h2⟩
    unfold prepare_coords_for_device
    dsimp only
    have hnot : ¬(digitCount (parse_coords_from_ui xml) < 10 ∨
        containsKey (parse_coords_from_ui xml) "CALL" = false) := by
      rintro (hlt | hfalse)
      · omega
      · rw [h2] at hfalse; exact absurd hfalse (by decide)
    rw [if_neg hnot,
      if_neg (fun hf : containsKey (parse_coords_from_ui xml) "CALL" = false => by
        rw [h2] at hf; exact absurd hf (by decide))]

/-- Witness for C1 as amended: the eight-digit snapshot without a CALL
element falls back to the grid. -/
theorem c1_resolver_fallback_witness :
    prepare_coords_for_device none (some c1bNodes) (some (720, 1612)) =
      fallback_grid (some (720, 1612)) :=
  (c1_resolver_fallback (some c1bNodes) (some (720, 1612))).1 (Or.inr (by decide))

/-- C2. On a snapshot with the complete twelve-key set and no CALL key the
resolver discards the parsed map and uses the fallback grid; the second
pass that the code carries for exactly this situation is unreachable,
because the branch containing it is only entered when CALL is already
present — on every input the resolver returns either the grid or the
first-pass parse, never a second-pass result.  The concrete snapshot
has an element carrying the token `dial` that the second pass would have
matched (its CALL midpoint would have been (20, 30)). -/
theorem c2_second_pass_dead :
    (prepare_coords_for_device none (some c2Nodes) (some (720, 1612)) =
        fallback_grid (some (720, 1612)) ∧
      digitCount (parse_coords_from_ui (some c2Nodes)) = 12 ∧
      lookupKey (parse_coords_from_ui (some c2Nodes)) "CALL" = none ∧
      lookupKey (secondPassCall c2Nodes (parse_coords_from_ui (some c2Nodes))) "CALL" =
        some (20, 30)) ∧
    (∀ (xml : Option (List UiNode)) (scr : Option (Nat × Nat)),
      prepare_coords_for_device none xml scr = fallback_grid scr ∨
        prepare_coords_for_device none xml scr = parse_coords_from_ui xml) := by
  constructor
  · refine ⟨?_, ?_, ?_, ?_⟩ <;> decide
  · intro xml scr
    unfold prepare_coords_for_device
    dsimp only
    by_cases h : digitCount (parse_coords_from_ui xml) < 10 ∨
        containsKey (parse_coords_from_ui xml) "CALL" = false
    · rw [if_pos h]; exact Or.inl rfl
    · rw [if_neg h]
      push_neg at h
      rw [if_neg h.2]
      exact Or.inr rfl

/-- C3 counterexample. For the screen size 2 by 2 the fallback grid maps
the keys 2 and 3 to the same point (1, 0): the thirteen points are not
pairwise distinct for every screen size. -/
theorem c3_counterexample :
    lookupKey (fallback_grid (some (2, 2))) "2" = some (1, 0) ∧
    lookupKey (fallback_grid (some (2, 2))) "3" = some (1, 0) := by
  exact ⟨by decide, by decide⟩

/-- The fallback grid written out: three columns at 12, 50 and 88 percent
of the width, four rows across the 45 to 85 percent vertical band, keys in
row-major dial-pad order, CALL at the bottom center. -/
theorem grid_explicit (w h : Nat) :
    fallback_grid (some (w, h)) =
      [("1", (12 * w / 100, 45 * h / 100 + (85 * h / 100 - 45 * h / 100) * 0 / 4)),
       ("2", (w / 2, 45 * h / 100 + (85 * h / 100 - 45 * h / 100) * 0 / 4)),
       ("3", (88 * w / 100, 45 * h / 100 + (85 * h / 100 - 45 * h / 100) * 0 / 4)),
       ("4", (12 * w / 100, 45 * h / 100 + (85 * h / 100 - 45 * h / 100) * 1 / 4)),
       ("5", (w / 2, 45 * h / 100 + (85 * h / 100 - 45 * h / 100) * 1 / 4)),
       ("6", (88 * w / 100, 45 * h / 100 + (85 * h / 100 - 45 * h / 100) * 1 / 4)),
       ("7", (12 * w / 100, 45 * h / 100 + (85 * h / 100 - 45 * h / 100) * 2 / 4)),
       ("8", (w / 2, 45 * h / 100 + (85 * h / 100 - 45 * h / 100) * 2 / 4)),
       ("9", (88 * w / 100, 45 * h / 100 + (85 * h / 100 - 45 * h / 100) * 2 / 4)),
       ("*", (12 * w / 100, 45 * h / 100 + (85 * h / 100 - 45 * h / 100) * 3 / 4)),
       ("0", (w / 2, 45 * h / 100 + (85 * h / 100 - 45 * h / 100) * 3 / 4)),
       ("#", (88 * w / 100, 45 * h / 100 + (85 * h / 100 - 45 * h / 100) * 3 / 4)),
       ("CALL", (w / 2, 93 * h / 100))] := rfl

/-- C3 as amended. For every screen size with width at least 3 and height
at least 10 (the fixed default 720 by 1612 used when the size query fails
included), the fallback grid generator returns a map with exactly the
twelve keys 1..9, *, 0, # assigned in row-major order over the 3 by 4 grid
plus a CALL key at (W/2, 0.93H); all thirteen points are pairwise distinct
and lie within [0,W] by [0,H]; the generator is a total function and never
fails.  (Distinctness genuinely needs the size bounds; see the
counterexample.) -/
theorem c3_grid_complete (w h : Nat) (hw : 3 ≤ w) (hh : 10 ≤ h) :
    (fallback_grid (some (w, h))).map Prod.fst =
      ["1", "2", "3", "4", "5", "6", "7", "8", "9", "*", "0", "#", "CALL"] ∧
    lookupKey (fallback_grid (some (w, h))) "CALL" = some (w / 2, 93 * h / 100) ∧
    ((fallback_grid (some (w, h))).map Prod.snd).Nodup ∧
    (∀ p ∈ (fallback_grid (some (w, h))).map Prod.snd, p.1 ≤ w ∧ p.2 ≤ h) ∧
    fallback_grid none = fallback_grid (some (720, 1612)) := by
  refine ⟨by rw [grid_explicit]; rfl, by rw [grid_explicit]; rfl, ?_, ?_, rfl⟩
  · rw [grid_explicit]
    simp only [List.map_cons, List.map_nil, List.nodup_cons, List.mem_cons,
      List.not_mem_nil, or_false, Prod.mk.injEq, not_or, List.nodup_nil, and_true]
    repeat' apply And.intro
    all_goals first | omega | exact not_false
  · rw [grid_explicit]
    intro p hp
    simp only [List.map_cons, List.map_nil, List.mem_cons,
      List.not_mem_nil, or_false] at hp
    rcases hp with rfl | rfl | rfl | rfl | rfl | rfl | rfl | rfl | rfl | rfl |
      rfl | rfl | rfl <;> exact ⟨by omega, by omega⟩

/-- Witness for C3 as amended: at the default size 720 by 1612 the grid
has the thirteen expected keys, pairwise distinct points, and CALL at
(360, 1499). -/
theorem c3_grid_complete_witness :
    (fallback_grid (some (720, 1612))).map Prod.fst =
      ["1", "2", "3", "4", "5", "6", "7", "8", "9", "*", "0", "#", "CALL"] ∧
    lookupKey (fallback_grid (some (720, 1612))) "CALL" = some (360, 1499) ∧
    ((fallback_grid (some (720, 1612))).map Prod.snd).Nodup :=
  ⟨(c3_grid_complete 720 1612 (by decide) (by decide)).1,
   (c3_grid_complete 720 1612 (by decide) (by decide)).2.1,
   (c3_grid_complete 720 1612 (by decide) (by decide)).2.2.1⟩

theorem recordsOf_cons_adb (c : String) (t : List Ev) :
    recordsOf (Ev.adb c :: t) = recordsOf t := by
  simp [recordsOf, List.countP_cons]

theorem recordsOf_adbStep (o : Option String) (cmd : String)
    (k : String → List Ev × Bool)
    (h : ∀ s, recordsOf (k s).1 = if (k s).2 then 0 else 1) :
    recordsOf (adbStep o cmd k).1 = if (adbStep o cmd k).2 then 0 else 1 := by
  cases o with
  | none => simp [adbStep, recordsOf]
  | some raw => simpa [adbStep, recordsOf_cons_adb] using h (pyStrip raw)

theorem recordsOf_commit (st : String) :
    recordsOf (commitRecord st).1 = if (commitRecord st).2 then 0 else 1 := by
  simp [commitRecord, recordsOf]

theorem recordsOf_runBranch (e : M10Env) :
    recordsOf (runBranch e).1 = if (runBranch e).2 then 0 else 1 := by
  unfold runBranch
  apply recordsOf_adbStep
  intro s
  cases hp : hasPkg s
  · simp only [Bool.false_eq_true, if_false]
    apply recordsOf_adbStep; intro _
    apply recordsOf_adbStep; intro s2
    cases hp2 : hasPkg s2
    · simp only [Bool.false_eq_true, if_false]; exact recordsOf_commit _
    · simp only [if_true]; exact recordsOf_commit _
  · simp only [if_true]; exact recordsOf_commit _

theorem recordsOf_notRunBranch (e : M10Env) :
    recordsOf (notRunBranch e).1 = if (notRunBranch e).2 then 0 else 1 := by
  unfold notRunBranch
  apply recordsOf_adbStep; intro _
  apply recordsOf_adbStep; intro s
  cases hp : hasPkg s
  · simp only [Bool.false_eq_true, if_false]
    apply recordsOf_adbStep; intro _
    apply recordsOf_adbStep; intro s2
    cases hp2 : hasPkg s2
    · simp only [Bool.false_eq_true, if_false]; exact recordsOf_commit _
    · simp only [if_true]; exact recordsOf_commit _
  · simp only [if_true]; exact recordsOf_commit _

/-- C4 as amended. A session that runs through its states without a raised
transport error appends exactly one outcome record; a session aborted by a
raised transport error appends none (there is no exception handler and no
error-capturing FAILED record). -/
theorem c4_one_record (e : M10Env) :
    recordsOf (process_device e).1 = if (process_device e).2 then 0 else 1 := by
  unfold process_device
  apply recordsOf_adbStep
  intro s
  have hstage : recordsOf (unlockStage e).1 = if (unlockStage e).2 then 0 else 1 := by
    unfold unlockStage
    apply recordsOf_adbStep; intro _
    apply recordsOf_adbStep; intro _
    unfold appStage
    apply recordsOf_adbStep; intro s2
    by_cases hp : (pyStrip s2).data = []
    · simp only [if_pos hp]; exact recordsOf_notRunBranch e
    · simp only [if_neg hp]; exact recordsOf_runBranch e
  cases hs : screenOnOf s
  · simp only [Bool.false_eq_true, if_false]
    apply recordsOf_adbStep; intro _
    exact hstage
  · simp only [if_true]; exact hstage

/-- C4 counterexample. A session whose very first transport call raises is
aborted and appends no outcome record at all, contradicting the claim that
it still yields a FAILED record with the error captured. -/
theorem c4_counterexample :
    (process_device envNone).2 = true ∧ recordsOf (process_device envNone).1 = 0 := by
  exact ⟨rfl, rfl⟩

theorem launchesOf_cons (ev : Ev) (t : List Ev) :
    launchesOf (ev :: t) =
      launchesOf t + (match ev with
        | Ev.adb c => if c == launchCmd then 1 else 0
        | Ev.record _ => 0) := by
  cases ev with
  | adb c => simp [launchesOf, List.countP_cons]
  | record s => simp [launchesOf, List.countP_cons]

theorem launchesOf_adbStep_ne (o : Option String) (cmd : String)
    (k : String → List Ev × Bool) (n : Nat)
    (hc : (cmd == launchCmd) = false)
    (h : ∀ s, launchesOf (k s).1 ≤ n) :
    launchesOf (adbStep o cmd k).1 ≤ n := by
  cases o with
  | none => simp [adbStep, launchesOf_cons, launchesOf, hc]
  | some raw =>
    simp only [adbStep, launchesOf_cons, hc, if_false]
    simpa using h (pyStrip raw)

theorem launchesOf_adbStep_launch (o : Option String)
    (k : String → List Ev × Bool) (n : Nat)
    (h : ∀ s, launchesOf (k s).1 ≤ n) :
    launchesOf (adbStep o launchCmd k).1 ≤ n + 1 := by
  cases o with
  | none => simp [adbStep, launchesOf_cons, launchesOf]
  | some raw =>
    simp only [adbStep, launchesOf_cons, beq_self_eq_true, if_true]
    have := h (pyStrip raw)
    omega

theorem launchesOf_commit (st : String) : launchesOf (commitRecord st).1 = 0 := by
  simp [commitRecord, launchesOf]

/-- C5. In the application-launch session: a process that is alive and
already in the foreground yields the outcome `Already Running` with zero
launch invocations; a process that was not running, whose first launch
fails the foreground check and whose second succeeds, yields
`Launched After Retry` with exactly two launch invocations; and no session
ever issues more than two launch invocations (at most one retry). -/
theorem c5_launch_outcomes :
    (∀ op o26 o82 osw opid ofA olB ofB olC ofC olD ofD : String,
      (pyStrip (pyStrip opid)).data ≠ [] →
      hasPkg (pyStrip ofA) = true →
      recStatuses (process_device
          (liveEnv op o26 o82 osw opid ofA olB ofB olC ofC olD ofD)).1 =
          ["Already Running"] ∧
        launchesOf (process_device
          (liveEnv op o26 o82 osw opid ofA olB ofB olC ofC olD ofD)).1 = 0) ∧
    (∀ op o26 o82 osw opid ofA olB ofB olC ofC olD ofD : String,
      (pyStrip (pyStrip opid)).data = [] →
      hasPkg (pyStrip ofC) = false →
      hasPkg (pyStrip ofD) = true →
      recStatuses (process_device
          (liveEnv op o26 o82 osw opid ofA olB ofB olC ofC olD ofD)).1 =
          ["Launched After Retry"] ∧
        launchesOf (process_device
          (liveEnv op o26 o82 osw opid ofA olB ofB olC ofC olD ofD)).1 = 2) ∧
    (∀ e : M10Env, launchesOf (process_device e).1 ≤ 2) := by
  refine ⟨?_, ?_, ?_⟩
  · intro op o26 o82 osw opid ofA olB ofB olC ofC olD ofD hpid hfg
    cases hs : screenOnOf (pyStrip op) <;>
      simp [process_device, unlockStage, appStage, runBranch, adbStep,
        commitRecord, liveEnv, hs, hpid, hfg, recStatuses, launchesOf,
        List.countP_cons, launchCmd, powerCmd, key26Cmd, key82Cmd, swipeCmd,
        pidofCmd, fgCmd]
  · intro op o26 o82 osw opid ofA olB ofB olC ofC olD ofD hpid hfgC hfgD
    cases hs : screenOnOf (pyStrip op) <;>
      simp [process_device, unlockStage, appStage, notRunBranch, adbStep,
        commitRecord, liveEnv, hs, hpid, hfgC, hfgD, recStatuses, launchesOf,
        List.countP_cons, launchCmd, powerCmd, key26Cmd, key82Cmd, swipeCmd,
        pidofCmd, fgCmd]
  · intro e
    have hrun : launchesOf (runBranch e).1 ≤ 2 := by
      unfold runBranch
      apply launchesOf_adbStep_ne _ _ _ 2 (by decide)
      intro s
      cases hp : hasPkg s
      · simp only [Bool.false_eq_true, if_false]
        apply launchesOf_adbStep_launch _ _ 1
        intro s2
        apply launchesOf_adbStep_ne _ _ _ 1 (by decide)
        intro s3
        cases hp2 : hasPkg s3 <;>
          simp [launchesOf_commit]
      · simp only [if_true]
        simp [launchesOf_commit]
    have hnot : launchesOf (notRunBranch e).1 ≤ 2 := by
      unfold notRunBranch
      have hinner : ∀ s : String,
          launchesOf ((adbStep e.fgC fgCmd fun oC =>
            if hasPkg oC then commitRecord "Launched"
            else
              adbStep e.launchD launchCmd fun _ =>
                adbStep e.fgD fgCmd fun oD =>
                  if hasPkg oD then commitRecord "Launched After Retry"
                  else commitRecord "Failed")).1 ≤ 1 := by
        intro _
        apply launchesOf_adbStep_ne _ _ _ 1 (by decide)
        intro s
        cases hp : hasPkg s
        · simp only [Bool.false_eq_true, if_false]
          apply launchesOf_adbStep_launch _ _ 0
          intro s2
          apply launchesOf_adbStep_ne _ _ _ 0 (by decide)
          intro s3
          cases hp2 : hasPkg s3 <;> simp [launchesOf_commit]
        · simp only [if_true]; simp [launchesOf_commit]
      have := launchesOf_adbStep_launch e.launchC
        (fun _ => adbStep e.fgC fgCmd fun oC =>
          if hasPkg oC then commitRecord "Launched"
          else
            adbStep e.launchD launchCmd fun _ =>
              adbStep e.fgD fgCmd fun oD =>
                if hasPkg oD then commitRecord "Launched After Retry"
                else commitRecord "Failed") 1 hinner
      omega
    have hstage : launchesOf (unlockStage e).1 ≤ 2 := by
      unfold unlockStage
      apply launchesOf_adbStep_ne _ _ _ 2 (by decide)
      intro _
      apply launchesOf_adbStep_ne _ _ _ 2 (by decide)
      intro _
      unfold appStage
      apply launchesOf_adbStep_ne _ _ _ 2 (by decide)
      intro s2
      by_cases hp : (pyStrip s2).data = []
      · simp only [if_pos hp]; exact hnot
      · simp only [if_neg hp]; exact hrun
    unfold process_device
    apply launchesOf_adbStep_ne _ _ _ 2 (by decide)
    intro s
    cases hs : screenOnOf s
    · simp only [Bool.false_eq_true, if_false]
      apply launchesOf_adbStep_ne _ _ _ 2 (by decide)
      intro _
      exact hstage
    · simp only [if_true]; exact hstage

theorem dropWhile_false (p : Char → Bool) :
    ∀ l : List Char, (∀ c ∈ l, p c = false) → l.dropWhile p = l := by
  intro l
  induction l with
  | nil => intro _; rfl
  | cons x xs _ =>
    intro h
    rw [List.dropWhile_cons, h x (List.mem_cons_self x xs)]
    simp

theorem pyStripChars_id (l : List Char) (h : ∀ c ∈ l, pySpace c = false) :
    pyStripChars l = l := by
  unfold pyStripChars
  rw [dropWhile_false pySpace l h,
    dropWhile_false pySpace l.reverse (fun c hc => h c (List.mem_reverse.mp hc)),
    List.reverse_reverse]

theorem splitOnChar_nosep (c : Char) :
    ∀ l : List Char, c ∉ l → splitOnChar c l = [l] := by
  intro l
  induction l with
  | nil => intro _; rfl
  | cons x xs ih =>
    intro h
    have hx : (x == c) = false := by
      simp only [beq_eq_false_iff_ne, ne_eq]
      exact fun he => h (he ▸ List.mem_cons_self x xs)
    simp only [splitOnChar, hx, Bool.false_eq_true, if_false,
      ih (fun hc => h (List.mem_cons_of_mem x hc))]

theorem splitOnChar_append (c : Char) :
    ∀ (a b : List Char), c ∉ a →
      splitOnChar c (a ++ c :: b) = a :: splitOnChar c b := by
  intro a
  induction a with
  | nil =>
    intro b _
    simp [splitOnChar]
  | cons x a' ih =>
    intro b h
    have hx : (x == c) = false := by
      simp only [beq_eq_false_iff_ne, ne_eq]
      exact fun he => h (he ▸ List.mem_cons_self x a')
    have hrec := ih b (fun hc => h (List.mem_cons_of_mem x hc))
    simp only [List.cons_append, splitOnChar, List.append_eq, hx,
      Bool.false_eq_true, if_false, hrec]

theorem digitChar_isDigit (d : Nat) (h : d < 10) :
    isDigitChar (digitChar d) = true := by
  interval_cases d <;> decide

theorem digitChar_toNat (d : Nat) (h : d < 10) :
    (digitChar d).toNat = 48 + d := by
  interval_cases d <;> decide

theorem isDigitChar_sep (c : Char) (h : isDigitChar c = true) :
    pySpace c = false ∧ c ≠ ':' ∧ c ≠ ',' ∧ c ≠ '\n' := by
  refine ⟨?_, ?_, ?_, ?_⟩
  · cases hps : pySpace c
    · rfl
    · exfalso
      simp only [pySpace, Bool.or_eq_true, decide_eq_true_eq, or_assoc] at hps
      rcases hps with rfl | rfl | rfl | rfl <;> exact absurd h (by decide)
  · rintro rfl; exact absurd h (by decide)
  · rintro rfl; exact absurd h (by decide)
  · rintro rfl; exact absurd h (by decide)

theorem natToRevDigits_digits (n : Nat) :
    ∀ c ∈ natToRevDigits n, isDigitChar c = true := by
  induction n using natToRevDigits.induct with
  | case1 n h =>
    intro c hc
    rw [natToRevDigits, dif_pos h] at hc
    rcases List.mem_singleton.mp hc with rfl
    exact digitChar_isDigit n h
  | case2 n h ih =>
    intro c hc
    rw [natToRevDigits, dif_neg h] at hc
    rcases List.mem_cons.mp hc with rfl | hc2
    · exact digitChar_isDigit (n % 10) (Nat.mod_lt n (by omega))
    · exact ih c hc2

theorem natRepr_digits (n : Nat) :
    ∀ c ∈ natRepr n, isDigitChar c = true :=
  fun c hc => natToRevDigits_digits n c (List.mem_reverse.mp hc)

theorem natToRevDigits_ne_nil (n : Nat) : natToRevDigits n ≠ [] := by
  rw [natToRevDigits]
  split <;> simp

theorem natRepr_ne_nil (n : Nat) : natRepr n ≠ [] := by
  unfold natRepr
  simp [natToRevDigits_ne_nil n]

theorem charsToNat_append (l : List Char) (c : Char) :
    charsToNat (l ++ [c]) = 10 * charsToNat l + (c.toNat - 48) := by
  unfold charsToNat
  rw [List.foldl_append]
  rfl

theorem charsToNat_natRepr (n : Nat) : charsToNat (natRepr n) = n := by
  induction n using natToRevDigits.induct with
  | case1 n h =>
    unfold natRepr
    rw [natToRevDigits, dif_pos h]
    show charsToNat [digitChar n] = n
    unfold charsToNat
    simp only [List.foldl_cons, List.foldl_nil]
    rw [digitChar_toNat n h]
    omega
  | case2 n h ih =>
    unfold natRepr
    rw [natToRevDigits, dif_neg h, List.reverse_cons]
    unfold natRepr at ih
    rw [charsToNat_append, ih, digitChar_toNat (n % 10) (Nat.mod_lt n (by omega))]
    omega

theorem parseNat_natRepr (n : Nat) : parseNat (natRepr n) = some n := by
  unfold parseNat
  have hstrip : pyStripChars (natRepr n) = natRepr n :=
    pyStripChars_id _ (fun c hc => (isDigitChar_sep c (natRepr_digits n c hc)).1)
  rw [hstrip, if_pos ⟨natRepr_ne_nil n, List.all_eq_true.mpr (natRepr_digits n)⟩,
    charsToNat_natRepr]

theorem keyAlphabet_good :
    ∀ k ∈ keyAlphabet, k.data ≠ [] ∧ ∀ c ∈ k.data, goodKeyChar c = true := by
  decide

theorem goodKeyChar_spec (c : Char) (h : goodKeyChar c = true) :
    pySpace c = false ∧ c ≠ ':' ∧ c ≠ ',' ∧ c ≠ '\n' := by
  simp only [goodKeyChar, Bool.and_eq_true, Bool.not_eq_true', beq_eq_false_iff_ne,
    ne_eq] at h
  exact ⟨h.1.1.1, h.1.1.2, h.1.2, h.2⟩

theorem lineOfChars_no_space (kv : String × Pt) (hk : kv.1 ∈ keyAlphabet) :
    ∀ c ∈ lineOfChars kv, pySpace c = false := by
  intro c hc
  simp only [lineOfChars, List.mem_append, List.mem_cons] at hc
  rcases hc with hkc | rfl | hx | rfl | hy
  · exact (goodKeyChar_spec c ((keyAlphabet_good kv.1 hk).2 c hkc)).1
  · decide
  · exact (isDigitChar_sep c (natRepr_digits kv.2.1 c hx)).1
  · decide
  · exact (isDigitChar_sep c (natRepr_digits kv.2.2 c hy)).1

theorem lineOfChars_no_newline (kv : String × Pt) (hk : kv.1 ∈ keyAlphabet) :
    '\n' ∉ lineOfChars kv := by
  intro hc
  simp only [lineOfChars, List.mem_append, List.mem_cons] at hc
  rcases hc with hkc | he | hx | he | hy
  · exact (goodKeyChar_spec _ ((keyAlphabet_good kv.1 hk).2 _ hkc)).2.2.2 rfl
  · exact absurd he (by decide)
  · exact (isDigitChar_sep _ (natRepr_digits kv.2.1 _ hx)).2.2.2 rfl
  · exact absurd he (by decide)
  · exact (isDigitChar_sep _ (natRepr_digits kv.2.2 _ hy)).2.2.2 rfl

theorem saveChars_split (m : Coords) (h : ∀ kv ∈ m, kv.1 ∈ keyAlphabet) :
    splitOnChar '\n' (saveChars m) = m.map lineOfChars ++ [[]] := by
  induction m with
  | nil => rfl
  | cons kv rest ih =>
    show splitOnChar '\n' (lineOfChars kv ++ '\n' :: saveChars rest) = _
    rw [splitOnChar_append '\n' _ _
        (lineOfChars_no_newline kv (h kv (List.mem_cons_self kv rest))),
      ih (fun kv' hkv' => h kv' (List.mem_cons_of_mem kv hkv'))]
    rfl

theorem fileLines_save (m : Coords) (h : ∀ kv ∈ m, kv.1 ∈ keyAlphabet) :
    fileLines (saveChars m) = m.map lineOfChars := by
  rw [show fileLines (saveChars m) =
      (if (splitOnChar '\n' (saveChars m)).getLast? = some [] then
        (splitOnChar '\n' (saveChars m)).dropLast
      else splitOnChar '\n' (saveChars m)) from rfl,
    saveChars_split m h, List.getLast?_concat, if_pos rfl, List.dropLast_concat]

theorem containsKey_false_of_not_mem (m : Coords) (k : String)
    (h : k ∉ m.map Prod.fst) : containsKey m k = false := by
  induction m with
  | nil => rfl
  | cons kv rest ih =>
    have h1 : kv.1 ≠ k := by
      intro he
      exact h (he ▸ List.mem_cons_self _ _)
    simp only [containsKey, lookupKey, if_neg h1]
    exact ih (fun hm => h (List.mem_cons_of_mem _ hm))

theorem dictInsert_fresh (m : Coords) (k : String) (v : Pt)
    (h : containsKey m k = false) : dictInsert m k v = m ++ [(k, v)] := by
  induction m with
  | nil => rfl
  | cons kv rest ih =>
    by_cases hk : kv.1 = k
    · exfalso
      obtain ⟨k1, v1⟩ := kv
      simp only [containsKey, lookupKey] at h
      rw [if_pos hk] at h
      simp at h
    · obtain ⟨k1, v1⟩ := kv
      simp only [dictInsert, if_neg hk]
      rw [ih (by simpa [containsKey, lookupKey, if_neg hk] using h)]
      rfl

theorem loadLine_lineOf (kv : String × Pt) (acc : Coords)
    (hk : kv.1 ∈ keyAlphabet) :
    loadLine acc (lineOfChars kv) = some (dictInsert acc kv.1 kv.2) := by
  have hgood := (keyAlphabet_good kv.1 hk).2
  have hkey_sep : ':' ∉ kv.1.data :=
    fun hc => (goodKeyChar_spec _ (hgood _ hc)).2.1 rfl
  have hx_colon : ':' ∉ natRepr kv.2.1 :=
    fun hc => (isDigitChar_sep _ (natRepr_digits kv.2.1 _ hc)).2.1 rfl
  have hy_colon : ':' ∉ natRepr kv.2.2 :=
    fun hc => (isDigitChar_sep _ (natRepr_digits kv.2.2 _ hc)).2.1 rfl
  have hx_comma : ',' ∉ natRepr kv.2.1 :=
    fun hc => (isDigitChar_sep _ (natRepr_digits kv.2.1 _ hc)).2.2.1 rfl
  have hy_comma : ',' ∉ natRepr kv.2.2 :=
    fun hc => (isDigitChar_sep _ (natRepr_digits kv.2.2 _ hc)).2.2.1 rfl
  have hmem : ':' ∈ lineOfChars kv := by
    simp [lineOfChars]
  unfold loadLine
  rw [if_pos hmem, pyStripChars_id _ (lineOfChars_no_space kv hk)]
  have hval_colon : ':' ∉ natRepr kv.2.1 ++ ',' :: natRepr kv.2.2 := by
    intro hc
    rcases List.mem_append.mp hc with hc1 | hc2
    · exact hx_colon hc1
    · rcases List.mem_cons.mp hc2 with he | hc3
      · exact absurd he (by decide)
      · exact hy_colon hc3
  rw [show lineOfChars kv =
      kv.1.data ++ ':' :: (natRepr kv.2.1 ++ ',' :: natRepr kv.2.2) from rfl,
    splitOnChar_append ':' _ _ hkey_sep, splitOnChar_nosep ':' _ hval_colon]
  dsimp only
  rw [splitOnChar_append ',' _ _ hx_comma, splitOnChar_nosep ',' _ hy_comma]
  dsimp only
  rw [parseNat_natRepr, parseNat_natRepr]

theorem loadLines_saved :
    ∀ (m acc : Coords), (∀ kv ∈ m, kv.1 ∈ keyAlphabet) →
      (acc.map Prod.fst ++ m.map Prod.fst).Nodup →
      loadLines acc (m.map lineOfChars) = some (acc ++ m) := by
  intro m
  induction m with
  | nil =>
    intro acc _ _
    simp [loadLines]
  | cons kv rest ih =>
    intro acc hkeys hnodup
    show loadLines acc (lineOfChars kv :: rest.map lineOfChars) = _
    unfold loadLines
    rw [loadLine_lineOf kv acc (hkeys kv (List.mem_cons_self kv rest))]
    have hdisj : (acc.map Prod.fst).Disjoint (kv.1 :: rest.map Prod.fst) :=
      (List.nodup_append.mp (by simpa using hnodup)).2.2
    have hfresh : kv.1 ∉ acc.map Prod.fst :=
      fun hmem => hdisj hmem (List.mem_cons_self _ _)
    rw [dictInsert_fresh acc kv.1 kv.2 (containsKey_false_of_not_mem acc kv.1 hfresh)]
    have hres := ih (acc ++ [kv])
      (fun kv' hkv' => hkeys kv' (List.mem_cons_of_mem kv hkv'))
      (by
        rw [List.map_append, List.append_assoc]
        simpa using hnodup)
    dsimp only
    show loadLines (acc ++ [kv]) (List.map lineOfChars rest) = some (acc ++ kv :: rest)
    rw [hres, List.append_assoc]
    rfl

/-- C9. Saving any coordinate map over the key alphabet to the cache and
loading it back reproduces exactly the same keys with identical integer
coordinates (in the same dict order). -/
theorem c9_cache_roundtrip (m : Coords)
    (hnodup : (m.map Prod.fst).Nodup)
    (hkeys : ∀ kv ∈ m, kv.1 ∈ keyAlphabet) :
    load_coords (save_coords m) = some m := by
  unfold load_coords save_coords
  show loadLines [] (fileLines (saveChars m)) = some m
  rw [fileLines_save m hkeys]
  have := loadLines_saved m [] hkeys (by simpa using hnodup)
  simpa using this

/-- Witness for C9: the complete fallback grid for the default screen size
round-trips through the cache unchanged. -/
theorem c9_cache_roundtrip_witness :
    load_coords (save_coords (fallback_grid (some (720, 1612)))) =
      some (fallback_grid (some (720, 1612))) :=
  c9_cache_roundtrip (fallback_grid (some (720, 1612))) (by decide) (by decide)

/-- Witness for C5: with the screen reported on, the process alive and the
focus output containing the package, the session records `Already Running`
and issues no launch broadcast; and a concrete not-running session whose
first foreground check fails and second succeeds records
`Launched After Retry` with exactly two launch broadcasts. -/
theorem c5_launch_outcomes_witness :
    (recStatuses (process_device (liveEnv "state=ON" "" "" "" "123"
        "mCurrentFocus=com.sprd.validationtools.Main" "" "" "" "" "" "")).1 =
        ["Already Running"] ∧
      launchesOf (process_device (liveEnv "state=ON" "" "" "" "123"
        "mCurrentFocus=com.sprd.validationtools.Main" "" "" "" "" "" "")).1 = 0) ∧
    (recStatuses (process_device (liveEnv "state=ON" "" "" "" ""
        "" "" "" "" "mCurrentFocus=other" ""
        "mCurrentFocus=com.sprd.validationtools.Main")).1 =
        ["Launched After Retry"] ∧
      launchesOf (process_device (liveEnv "state=ON" "" "" "" ""
        "" "" "" "" "mCurrentFocus=other" ""
        "mCurrentFocus=com.sprd.validationtools.Main")).1 = 2) :=
  ⟨c5_launch_outcomes.1 "state=ON" "" "" "" "123"
      "mCurrentFocus=com.sprd.validationtools.Main" "" "" "" "" "" ""
      (by decide) (by decide),
   c5_launch_outcomes.2.1 "state=ON" "" "" "" ""
      "" "" "" "" "mCurrentFocus=other" ""
      "mCurrentFocus=com.sprd.validationtools.Main"
      (by decide) (by decide) (by decide)⟩


